import Mathlib

/-!
Verification of the typed request/response validation and URL-building layer
of the civitai-mcp-server repository.

The development shallowly embeds, in Lean:

* the URL builder `CivitaiClient.buildUrl` together with the semantics of
  `URLSearchParams.set` and `URLSearchParams.append` that it relies on;
* the header construction and error wrapping of `CivitaiClient.makeRequest`;
* the convenience composition methods (`getPopularModels`, `getLatestModels`,
  `getTopRatedModels`, `searchModelsByTag`, `searchModelsByCreator`,
  `getModelsByType`) as the parameter bags they forward to `getModels`;
* the zod schemas of `src/types.ts` as explicit validator functions from a
  JSON value model to typed records.

Conventions: JavaScript `undefined` and `null` parameter values are explicit
constructors of `ParamValue`; a JS object is a key-value list with distinct
keys, and theorems that quantify over parameter bags carry a `Nodup`
hypothesis expressing exactly that.  Numeric JSON values are modelled as
integers, which covers every value appearing in the claims.  Percent
encoding is the identity on the unreserved characters appearing in the
claims, so the rendered query string concatenates pairs verbatim.
-/

namespace Civitai

/-- Scalar parameter values, with the stringification used by the JS
`toString` calls inside `buildUrl`. -/
inductive Scalar where
  | str (s : String)
  | num (n : Int)
  | bool (b : Bool)
  deriving DecidableEq

/-- JS `value.toString()` for the scalar values that occur in parameter bags. -/
def Scalar.render : Scalar → String
  | .str s => s
  | .num n => toString n
  | .bool b => if b then "true" else "false"

/-- A value bound to a key in a parameter bag: `undefined`, `null`, a scalar,
or an array of scalars, as in the TypeScript `Record<string, any>` that
`buildUrl` receives. -/
inductive ParamValue where
  | undef
  | null
  | scalar (v : Scalar)
  | arr (vs : List Scalar)
  deriving DecidableEq

/-- A parameter value is skipped by `buildUrl` when it is strictly equal to
`undefined`, `null` or the empty string. -/
def ParamValue.skipped : ParamValue → Bool
  | .undef => true
  | .null => true
  | .scalar v => v == .str ""
  | .arr _ => false

/-- An ordered list of query-string entries, the state of `url.searchParams`. -/
abbrev Query := List (String × String)

/-- Keys of a query, in order. -/
def qkeys (q : Query) : List String := q.map Prod.fst

/-- Semantics of `URLSearchParams.set`: replace the value of the first entry
with the given name and drop the other entries with that name; append when
no entry has that name. -/
def setParam : Query → String → String → Query
  | [], k, v => [(k, v)]
  | (k', v') :: rest, k, v =>
    if k' = k then (k, v) :: rest.filter (fun p => p.1 ≠ k)
    else (k', v') :: setParam rest k v

/-- Semantics of `URLSearchParams.append`: add an entry at the end. -/
def appendParam (q : Query) (k v : String) : Query := q ++ [(k, v)]

/-- One iteration of the `Object.entries(params).forEach` loop in `buildUrl`:
skip `undefined`, `null` and the empty string, append arrays element by
element, and `set` scalars. -/
def addParam (q : Query) (k : String) : ParamValue → Query
  | .undef => q
  | .null => q
  | .scalar v => if v = .str "" then q else setParam q k v.render
  | .arr vs => vs.foldl (fun acc x => appendParam acc k x.render) q

/-- A parameter bag, the `Record<string, any>` argument of `buildUrl`. -/
abbrev Params := List (String × ParamValue)

/-- Keys of a parameter bag, in order. -/
def pkeys (ps : Params) : List String := ps.map Prod.fst

/-- The query produced by the `if (this.apiKey)` step of `buildUrl` before
the parameter loop runs; an empty configured key is falsy in JS. -/
def tokenInit (apiKey : Option String) : Query :=
  match apiKey with
  | some key => if key = "" then [] else setParam [] "token" key
  | none => []

/-- The query-string part of the URL built by `CivitaiClient.buildUrl`. -/
def buildQuery (apiKey : Option String) (ps : Params) : Query :=
  ps.foldl (fun q kv => addParam q kv.1 kv.2) (tokenInit apiKey)

/-- The catalog client: the only construction-time state is the optional
API key. -/
structure CivitaiClient where
  apiKey : Option String

/-- The fixed base endpoint of the client. -/
def baseUrl : String := "https://civitai.com/api/v1"

/-- A built URL, split into path and query entries. -/
structure UrlParts where
  path : String
  query : Query
  deriving DecidableEq

/-- The URL built by `CivitaiClient.buildUrl` for an endpoint and a bag. -/
def buildUrlParts (c : CivitaiClient) (endpoint : String) (ps : Params) : UrlParts :=
  { path := baseUrl ++ endpoint, query := buildQuery c.apiKey ps }

/-- Rendering of the query entries inside `url.toString()`. -/
def renderQuery (q : Query) : String :=
  String.intercalate "&" (q.map (fun p => p.1 ++ "=" ++ p.2))

/-- Rendering of a built URL, as in `url.toString()`. -/
def UrlParts.render (u : UrlParts) : String :=
  if u.query.isEmpty then u.path else u.path ++ "?" ++ renderQuery u.query

/-- URL built by `getModels`. -/
def getModelsUrl (c : CivitaiClient) (ps : Params) : UrlParts :=
  buildUrlParts c "/models" ps

/-- URL built by `getImages`. -/
def getImagesUrl (c : CivitaiClient) (ps : Params) : UrlParts :=
  buildUrlParts c "/images" ps

/-- URL built by `getCreators`. -/
def getCreatorsUrl (c : CivitaiClient) (ps : Params) : UrlParts :=
  buildUrlParts c "/creators" ps

/-- URL built by `getTags`. -/
def getTagsUrl (c : CivitaiClient) (ps : Params) : UrlParts :=
  buildUrlParts c "/tags" ps

/-- The download URL returned by `CivitaiClient.getDownloadUrl`: pure string
construction through `buildUrl` with an empty bag. -/
def getDownloadUrl (c : CivitaiClient) (modelVersionId : Int) : String :=
  (buildUrlParts c ("/download/models/" ++ toString modelVersionId) []).render

/-- The headers attached by `CivitaiClient.makeRequest`; the authorization
header is spread in only when the configured key is truthy. -/
def requestHeaders (c : CivitaiClient) : List (String × String) :=
  ("Content-Type", "application/json") ::
    (match c.apiKey with
     | some key => if key = "" then [] else [("Authorization", "Bearer " ++ key)]
     | none => [])

/-- JS object-literal spread `\x7b ...base, ...opts \x7d` restricted to the
shape used by the search helpers: the literal keys come first in order, an
option with the same key overwrites the value in place, and remaining option
keys follow in their own order. -/
def spreadInto (base opts : Params) : Params :=
  base.map (fun kv =>
    match opts.lookup kv.1 with
    | some v => (kv.1, v)
    | none => kv)
  ++ opts.filter (fun kv => (base.lookup kv.1).isNone)

/-- Parameter bag forwarded to `getModels` by `searchModels`. -/
def searchModelsParams (query : String) (options : Params) : Params :=
  spreadInto [("query", .scalar (.str query))] options

/-- Parameter bag forwarded to `getModels` by `searchModelsByTag`. -/
def searchModelsByTagParams (tag : String) (options : Params) : Params :=
  spreadInto [("tag", .scalar (.str tag))] options

/-- Parameter bag forwarded to `getModels` by `searchModelsByCreator`. -/
def searchModelsByCreatorParams (username : String) (options : Params) : Params :=
  spreadInto [("username", .scalar (.str username))] options

/-- Parameter bag forwarded to `getModels` by `getModelsByType`. -/
def getModelsByTypeParams (type : String) (options : Params) : Params :=
  spreadInto [("types", .arr [.str type])] options

/-- Parameter bag forwarded to `getModels` by `getPopularModels`; `none`
arguments take the JS default parameter values. -/
def getPopularModelsParams (period : Option String) (limit : Option Int) : Params :=
  [("sort", .scalar (.str "Most Downloaded")),
   ("period", .scalar (.str (period.getD "Week"))),
   ("limit", .scalar (.num (limit.getD 20))),
   ("nsfw", .scalar (.bool false))]

/-- Parameter bag forwarded to `getModels` by `getLatestModels`. -/
def getLatestModelsParams (limit : Option Int) : Params :=
  [("sort", .scalar (.str "Newest")),
   ("limit", .scalar (.num (limit.getD 20))),
   ("nsfw", .scalar (.bool false))]

/-- Parameter bag forwarded to `getModels` by `getTopRatedModels`. -/
def getTopRatedModelsParams (period : Option String) (limit : Option Int) : Params :=
  [("sort", .scalar (.str "Highest Rated")),
   ("period", .scalar (.str (period.getD "AllTime"))),
   ("limit", .scalar (.num (limit.getD 20))),
   ("nsfw", .scalar (.bool false))]

/-! JSON values, as produced by `response.json()`, and the zod schemas of
`src/types.ts` as explicit validators.  A zod `.optional()` field may be
absent from the object (modelled as `Option` with `none` for absent); a
`.nullable()` field may be bound to JSON `null` (a second `Option` layer,
with `none` for `null`).  Unknown keys are silently dropped, as `z.object`
does. -/

/-- A decoded JSON value; numbers are modelled as integers, which covers
every value appearing in the claims. -/
inductive Json where
  | null
  | bool (b : Bool)
  | num (n : Int)
  | str (s : String)
  | arr (elems : List Json)
  | obj (fields : List (String × Json))

/-- Validator for `z.number()`. -/
def parseNum : Json → Except String Int
  | .num n => .ok n
  | _ => .error "Expected number"

/-- Validator for `z.string()`. -/
def parseStr : Json → Except String String
  | .str s => .ok s
  | _ => .error "Expected string"

/-- Validator for `z.boolean()`. -/
def parseBool : Json → Except String Bool
  | .bool b => .ok b
  | _ => .error "Expected boolean"

/-- Validator for `z.enum(values)`. -/
def parseEnum (values : List String) : Json → Except String String
  | .str s => if s ∈ values then .ok s else .error "Invalid enum value"
  | _ => .error "Expected string"

/-- Validator for `.nullable()` wrapping: JSON null becomes an explicit
`none`. -/
def parseNullable {α} (p : Json → Except String α) : Json → Except String (Option α)
  | .null => .ok none
  | j => (p j).map some

/-- Validator for `z.record(z.any())`: any object, values unconstrained. -/
def parseRecordAny : Json → Except String (List (String × Json))
  | .obj fields => .ok fields
  | _ => .error "Expected object"

/-- Element-wise validation of a JSON array body. -/
def parseElems {α} (p : Json → Except String α) : List Json → Except String (List α)
  | [] => .ok []
  | j :: rest => do
    let a ← p j
    let as ← parseElems p rest
    pure (a :: as)

/-- Validator for `z.array(p)`. -/
def parseArrayOf {α} (p : Json → Except String α) : Json → Except String (List α)
  | .arr xs => parseElems p xs
  | _ => .error "Expected array"

/-- A required object field: missing keys are a validation error. -/
def reqField {α} (fields : List (String × Json)) (name : String)
    (p : Json → Except String α) : Except String α :=
  match fields.lookup name with
  | none => .error ("Required field missing: " ++ name)
  | some j => p j

/-- An `.optional()` object field: a missing key validates to `none`. -/
def optField {α} (fields : List (String × Json)) (name : String)
    (p : Json → Except String α) : Except String (Option α) :=
  match fields.lookup name with
  | none => .ok none
  | some j => (p j).map some

/-- The `NSFWLevel` enumeration of `src/types.ts`. -/
def nsfwLevels : List String := ["None", "Soft", "Mature", "X"]

/-- The `ModelType` enumeration of `src/types.ts`. -/
def modelTypes : List String :=
  ["Checkpoint", "TextualInversion", "Hypernetwork", "AestheticGradient",
   "LORA", "Controlnet", "Poses"]

/-- The `ModelMode` enumeration of `src/types.ts`. -/
def modelModes : List String := ["Archived", "TakenDown"]

/-- The `FloatingPoint` enumeration of `src/types.ts`. -/
def floatingPoints : List String := ["fp16", "fp32", "bf16"]

/-- The `FileSize` enumeration of `src/types.ts`. -/
def fileSizes : List String := ["full", "pruned"]

/-- The `FileFormat` enumeration of `src/types.ts`. -/
def fileFormats : List String := ["SafeTensor", "PickleTensor", "Other"]

/-- A value of `z.union([z.number(), z.string()])`, preserved without
coercion as the spec requires. -/
inductive NumOrStr where
  | num (n : Int)
  | str (s : String)
  deriving DecidableEq

/-- Validator for the `nextCursor` union. -/
def parseNumOrStr : Json → Except String NumOrStr
  | .num n => .ok (.num n)
  | .str s => .ok (.str s)
  | _ => .error "Expected number or string"

/-- A value of `z.union([NSFWLevel, z.number()])`. -/
inductive NsfwLevelValue where
  | level (s : String)
  | num (n : Int)
  deriving DecidableEq

/-- Validator for the `nsfwLevel` union: a named level or a raw number. -/
def parseNsfwLevel : Json → Except String NsfwLevelValue
  | .str s => if s ∈ nsfwLevels then .ok (.level s) else .error "Invalid enum value"
  | .num n => .ok (.num n)
  | _ => .error "Expected NSFW level or number"

/-- Typed output of `MetadataSchema`. -/
structure Metadata where
  totalItems : Option Int
  currentPage : Option Int
  pageSize : Option Int
  totalPages : Option Int
  nextPage : Option String
  prevPage : Option String
  nextCursor : Option NumOrStr
  deriving DecidableEq

/-- Validator for `MetadataSchema`. -/
def parseMetadata : Json → Except String Metadata
  | .obj fields => do
    let totalItems ← optField fields "totalItems" parseNum
    let currentPage ← optField fields "currentPage" parseNum
    let pageSize ← optField fields "pageSize" parseNum
    let totalPages ← optField fields "totalPages" parseNum
    let nextPage ← optField fields "nextPage" parseStr
    let prevPage ← optField fields "prevPage" parseStr
    let nextCursor ← optField fields "nextCursor" parseNumOrStr
    pure { totalItems, currentPage, pageSize, totalPages, nextPage, prevPage,
           nextCursor }
  | _ => .error "Expected object"

/-- Typed output of `StatsSchema`. -/
structure Stats where
  downloadCount : Option Int
  favoriteCount : Option Int
  commentCount : Option Int
  ratingCount : Option Int
  rating : Option Int
  cryCount : Option Int
  laughCount : Option Int
  likeCount : Option Int
  heartCount : Option Int
  dislikeCount : Option Int
  deriving DecidableEq

/-- Validator for `StatsSchema`. -/
def parseStats : Json → Except String Stats
  | .obj fields => do
    let downloadCount ← optField fields "downloadCount" parseNum
    let favoriteCount ← optField fields "favoriteCount" parseNum
    let commentCount ← optField fields "commentCount" parseNum
    let ratingCount ← optField fields "ratingCount" parseNum
    let rating ← optField fields "rating" parseNum
    let cryCount ← optField fields "cryCount" parseNum
    let laughCount ← optField fields "laughCount" parseNum
    let likeCount ← optField fields "likeCount" parseNum
    let heartCount ← optField fields "heartCount" parseNum
    let dislikeCount ← optField fields "dislikeCount" parseNum
    pure { downloadCount, favoriteCount, commentCount, ratingCount, rating,
           cryCount, laughCount, likeCount, heartCount, dislikeCount }
  | _ => .error "Expected object"

/-- Typed output of `CreatorSchema`. -/
structure Creator where
  username : String
  image : Option (Option String)
  modelCount : Option Int
  link : Option String
  deriving DecidableEq

/-- Validator for `CreatorSchema`. -/
def parseCreator : Json → Except String Creator
  | .obj fields => do
    let username ← reqField fields "username" parseStr
    let image ← optField fields "image" (parseNullable parseStr)
    let modelCount ← optField fields "modelCount" parseNum
    let link ← optField fields "link" parseStr
    pure { username, image, modelCount, link }
  | _ => .error "Expected object"

/-- Typed output of `FileMetadataSchema`. -/
structure FileMetadata where
  fp : Option (Option String)
  size : Option (Option String)
  format : Option (Option String)
  deriving DecidableEq

/-- Validator for the object part of `FileMetadataSchema`. -/
def parseFileMetadata : Json → Except String FileMetadata
  | .obj fields => do
    let fp ← optField fields "fp" (parseNullable (parseEnum floatingPoints))
    let size ← optField fields "size" (parseNullable (parseEnum fileSizes))
    let format ← optField fields "format" (parseNullable (parseEnum fileFormats))
    pure { fp, size, format }
  | _ => .error "Expected object"

/-- Typed output of `ModelFileSchema`. -/
structure ModelFile where
  sizeKb : Option Int
  pickleScanResult : Option String
  virusScanResult : Option String
  scannedAt : Option (Option String)
  primary : Option Bool
  metadata : Option FileMetadata
  deriving DecidableEq

/-- Validator for `ModelFileSchema`. -/
def parseModelFile : Json → Except String ModelFile
  | .obj fields => do
    let sizeKb ← optField fields "sizeKb" parseNum
    let pickleScanResult ← optField fields "pickleScanResult" parseStr
    let virusScanResult ← optField fields "virusScanResult" parseStr
    let scannedAt ← optField fields "scannedAt" (parseNullable parseStr)
    let primary ← optField fields "primary" parseBool
    let metadata ← optField fields "metadata" parseFileMetadata
    pure { sizeKb, pickleScanResult, virusScanResult, scannedAt, primary,
           metadata }
  | _ => .error "Expected object"

/-- Typed output of `ImageSchema`. -/
structure Image where
  id : Option Int
  url : String
  hash : String
  width : Int
  height : Int
  nsfw : Option Bool
  nsfwLevel : Option NsfwLevelValue
  createdAt : Option String
  postId : Option Int
  stats : Option Stats
  meta : Option (Option (List (String × Json)))
  username : Option String
  modelVersionIds : Option (List Int)
  type : Option String
  browsingLevel : Option Int

/-- Validator for `ImageSchema`. -/
def parseImage : Json → Except String Image
  | .obj fields => do
    let id ← optField fields "id" parseNum
    let url ← reqField fields "url" parseStr
    let hash ← reqField fields "hash" parseStr
    let width ← reqField fields "width" parseNum
    let height ← reqField fields "height" parseNum
    let nsfw ← optField fields "nsfw" parseBool
    let nsfwLevel ← optField fields "nsfwLevel" parseNsfwLevel
    let createdAt ← optField fields "createdAt" parseStr
    let postId ← optField fields "postId" parseNum
    let stats ← optField fields "stats" parseStats
    let meta ← optField fields "meta" (parseNullable parseRecordAny)
    let username ← optField fields "username" parseStr
    let modelVersionIds ← optField fields "modelVersionIds" (parseArrayOf parseNum)
    let type ← optField fields "type" parseStr
    let browsingLevel ← optField fields "browsingLevel" parseNum
    pure { id, url, hash, width, height, nsfw, nsfwLevel, createdAt, postId,
           stats, meta, username, modelVersionIds, type, browsingLevel }
  | _ => .error "Expected object"

/-- Typed output of `ModelVersionSchema`. -/
structure ModelVersion where
  id : Int
  name : String
  description : Option (Option String)
  createdAt : Option String
  downloadUrl : Option String
  trainedWords : Option (List String)
  files : Option (List ModelFile)
  images : Option (List Image)
  stats : Option Stats
  index : Option Int
  baseModel : Option String

/-- Validator for `ModelVersionSchema`. -/
def parseModelVersion : Json → Except String ModelVersion
  | .obj fields => do
    let id ← reqField fields "id" parseNum
    let name ← reqField fields "name" parseStr
    let description ← optField fields "description" (parseNullable parseStr)
    let createdAt ← optField fields "createdAt" parseStr
    let downloadUrl ← optField fields "downloadUrl" parseStr
    let trainedWords ← optField fields "trainedWords" (parseArrayOf parseStr)
    let files ← optField fields "files" (parseArrayOf parseModelFile)
    let images ← optField fields "images" (parseArrayOf parseImage)
    let stats ← optField fields "stats" parseStats
    let index ← optField fields "index" parseNum
    let baseModel ← optField fields "baseModel" parseStr
    pure { id, name, description, createdAt, downloadUrl, trainedWords, files,
           images, stats, index, baseModel }
  | _ => .error "Expected object"

/-- Typed output of `ModelSchema`. -/
structure Model where
  id : Int
  name : String
  description : String
  type : String
  nsfw : Bool
  tags : List String
  mode : Option (Option String)
  creator : Creator
  stats : Option Stats
  modelVersions : List ModelVersion
  poi : Option Bool

/-- Validator for `ModelSchema`. -/
def parseModel : Json → Except String Model
  | .obj fields => do
    let id ← reqField fields "id" parseNum
    let name ← reqField fields "name" parseStr
    let description ← reqField fields "description" parseStr
    let type ← reqField fields "type" (parseEnum modelTypes)
    let nsfw ← reqField fields "nsfw" parseBool
    let tags ← reqField fields "tags" (parseArrayOf parseStr)
    let mode ← optField fields "mode" (parseNullable (parseEnum modelModes))
    let creator ← reqField fields "creator" parseCreator
    let stats ← optField fields "stats" parseStats
    let modelVersions ← reqField fields "modelVersions" (parseArrayOf parseModelVersion)
    let poi ← optField fields "poi" parseBool
    pure { id, name, description, type, nsfw, tags, mode, creator, stats,
           modelVersions, poi }
  | _ => .error "Expected object"

/-- Typed output of `ModelsResponseSchema`. -/
structure ModelsResponse where
  items : List Model
  metadata : Metadata

/-- Validator for `ModelsResponseSchema`. -/
def parseModelsResponse : Json → Except String ModelsResponse
  | .obj fields => do
    let items ← reqField fields "items" (parseArrayOf parseModel)
    let metadata ← reqField fields "metadata" parseMetadata
    pure { items, metadata }
  | _ => .error "Expected object"

/-! Error handling of `CivitaiClient.makeRequest`.  The `fetch` promise
either resolves with a completed response of some status, or rejects with a
network-level error; both outcomes are a `FetchResult`.  Inside the `try`
block a non-2xx status throws, and a schema mismatch throws; the `catch`
block rewraps any of these, and any network rejection, into one uniform
message prefixed with the literal text used at line 115 of the client. -/

/-- Outcome of the single outbound `fetch` call. -/
inductive FetchResult where
  | success (status : Nat) (statusText : String) (body : Json)
  | networkError (message : String)

/-- The three kinds of throw site inside the `try` block, before the
uniform rewrapping by the `catch` block. -/
inductive FailKind where
  | transport (message : String)
  | httpStatus (status : Nat) (statusText : String)
  | validation (message : String)
  deriving DecidableEq

/-- The message of the inner error at each throw site; the HTTP case is the
template string at line 109 of the client. -/
def FailKind.message : FailKind → String
  | .transport m => m
  | .httpStatus status statusText => "HTTP " ++ toString status ++ ": " ++ statusText
  | .validation m => m

/-- Which throw site fires inside the `try` block of `makeRequest`:
`response.ok` is status 200..299 in node-fetch; a non-ok status throws an
HTTP error, then the body is validated by the schema. -/
def classifyRequest {α} (fr : FetchResult) (schema : Json → Except String α) :
    Except FailKind α :=
  match fr with
  | .networkError m => .error (.transport m)
  | .success status statusText body =>
    if 200 ≤ status ∧ status < 300 then
      match schema body with
      | .ok v => .ok v
      | .error m => .error (.validation m)
    else .error (.httpStatus status statusText)

/-- The result of `makeRequest`: a validated value, or the uniform failure
rewrapped by the `catch` block. -/
def makeRequest {α} (fr : FetchResult) (schema : Json → Except String α) :
    Except String α :=
  match classifyRequest fr schema with
  | .ok v => .ok v
  | .error k => .error ("API request failed: " ++ k.message)

/-- The query entries contributed by one bag entry of `buildUrl` in the case
where its key is not already present in the accumulated query: skipped
values contribute nothing, a scalar contributes one entry, an array
contributes one entry per element in order. -/
def entryPairs (k : String) : ParamValue → Query
  | .undef => []
  | .null => []
  | .scalar v => if v = .str "" then [] else [(k, v.render)]
  | .arr vs => vs.map (fun x => (k, x.render))

/-- Concatenated contributions of a whole parameter bag. -/
def bagPairs (ps : Params) : Query :=
  ps.flatMap (fun kv => entryPairs kv.1 kv.2)

/-- The entries of a query with a given key, in order. -/
def entriesFor (q : Query) (k : String) : Query :=
  q.filter (fun p => p.1 == k)

/-! Lemmas describing `buildQuery` on bags with pairwise distinct keys. -/

theorem mem_qkeys_iff {q : Query} {k : String} :
    k ∈ qkeys q ↔ ∃ p ∈ q, p.1 = k := by
  simp [qkeys, List.mem_map]

theorem setParam_of_not_mem {q : Query} {k v : String} (h : k ∉ qkeys q) :
    setParam q k v = q ++ [(k, v)] := by
  induction q with
  | nil => rfl
  | cons p rest ih =>
    obtain ⟨k', v'⟩ := p
    have hk : ¬(k' = k) := fun e => h (by simp [qkeys, e])
    have hr : k ∉ qkeys rest := fun hm => h (by simp [qkeys] at hm ⊢; exact .inr hm)
    simp only [setParam, if_neg hk, List.cons_append, ih hr]

theorem foldl_appendParam (vs : List Scalar) (q : Query) (k : String) :
    vs.foldl (fun acc x => appendParam acc k x.render) q =
      q ++ vs.map (fun x => (k, x.render)) := by
  induction vs generalizing q with
  | nil => simp
  | cons x rest ih =>
    rw [List.foldl_cons, ih, List.map_cons]
    simp [appendParam]

theorem addParam_of_not_mem {q : Query} {k : String} {v : ParamValue}
    (h : k ∉ qkeys q) : addParam q k v = q ++ entryPairs k v := by
  cases v with
  | undef => simp [addParam, entryPairs]
  | null => simp [addParam, entryPairs]
  | scalar s =>
    by_cases hs : s = .str ""
    · simp [addParam, entryPairs, hs]
    · simp [addParam, entryPairs, hs, setParam_of_not_mem h]
  | arr vs => simp [addParam, entryPairs, foldl_appendParam]

theorem fst_of_mem_entryPairs {k : String} {v : ParamValue} {p : String × String}
    (h : p ∈ entryPairs k v) : p.1 = k := by
  cases v with
  | undef => simp [entryPairs] at h
  | null => simp [entryPairs] at h
  | scalar s =>
    by_cases hs : s = .str "" <;> simp [entryPairs, hs] at h
    subst h; rfl
  | arr vs =>
    simp [entryPairs] at h
    obtain ⟨x, _, he⟩ := h
    rw [← he]

theorem foldl_addParam_of_disjoint {ps : Params} {q : Query}
    (hnd : (pkeys ps).Nodup) (hdisj : ∀ k ∈ pkeys ps, k ∉ qkeys q) :
    ps.foldl (fun acc kv => addParam acc kv.1 kv.2) q = q ++ bagPairs ps := by
  induction ps generalizing q with
  | nil => simp [bagPairs]
  | cons kv rest ih =>
    obtain ⟨k, v⟩ := kv
    have hpk : pkeys ((k, v) :: rest) = k :: pkeys rest := rfl
    rw [hpk, List.nodup_cons] at hnd
    have hk : k ∉ qkeys q := hdisj k (by rw [hpk]; exact List.mem_cons_self k _)
    have hdisj' : ∀ k' ∈ pkeys rest, k' ∉ qkeys (q ++ entryPairs k v) := by
      intro k' hk' hmem
      have hne : k' ≠ k := fun e => hnd.1 (e ▸ hk')
      have hmem' : k' ∈ qkeys q ∨ k' ∈ qkeys (entryPairs k v) := by
        simpa only [qkeys, List.map_append, List.mem_append] using hmem
      rcases hmem' with hq | he
      · exact hdisj k' (by rw [hpk]; exact List.mem_cons_of_mem _ hk') hq
      · rcases mem_qkeys_iff.mp he with ⟨p, hp, hfst⟩
        exact hne (hfst ▸ fst_of_mem_entryPairs hp)
    calc ((k, v) :: rest).foldl (fun acc kv => addParam acc kv.1 kv.2) q
        = rest.foldl (fun acc kv => addParam acc kv.1 kv.2) (addParam q k v) := by
          simp
      _ = rest.foldl (fun acc kv => addParam acc kv.1 kv.2) (q ++ entryPairs k v) := by
          rw [addParam_of_not_mem hk]
      _ = (q ++ entryPairs k v) ++ bagPairs rest := ih hnd.2 hdisj'
      _ = q ++ bagPairs ((k, v) :: rest) := by
          simp [bagPairs, List.flatMap_cons, List.append_assoc]

theorem qkeys_tokenInit {apiKey : Option String} {k : String} (h : k ≠ "token") :
    k ∉ qkeys (tokenInit apiKey) := by
  cases apiKey with
  | none => simp [tokenInit, qkeys]
  | some key =>
    by_cases hk : key = "" <;> simp [tokenInit, qkeys, hk, setParam, h]

theorem buildQuery_eq_of_nodup {apiKey : Option String} {ps : Params}
    (hnd : (pkeys ps).Nodup) (htok : "token" ∉ pkeys ps) :
    buildQuery apiKey ps = tokenInit apiKey ++ bagPairs ps := by
  apply foldl_addParam_of_disjoint hnd
  intro k hk
  exact qkeys_tokenInit (fun e => htok (e ▸ hk))

theorem fst_of_mem_bagPairs {ps : Params} {p : String × String}
    (h : p ∈ bagPairs ps) : p.1 ∈ pkeys ps := by
  rw [bagPairs, List.mem_flatMap] at h
  obtain ⟨kv, hkv, hp⟩ := h
  have := fst_of_mem_entryPairs hp
  simp only [pkeys, List.mem_map]
  exact ⟨kv, hkv, this.symm⟩

theorem entriesFor_entryPairs_self (k : String) (v : ParamValue) :
    entriesFor (entryPairs k v) k = entryPairs k v := by
  rw [entriesFor, List.filter_eq_self]
  intro p hp
  simp [fst_of_mem_entryPairs hp]

theorem entriesFor_entryPairs_ne {k k' : String} (h : k' ≠ k) (v : ParamValue) :
    entriesFor (entryPairs k' v) k = [] := by
  rw [entriesFor, List.filter_eq_nil_iff]
  intro p hp hpk
  exact h ((fst_of_mem_entryPairs hp).symm.trans (by simpa using hpk))

theorem entriesFor_bagPairs_of_not_mem {ps : Params} {k : String}
    (h : k ∉ pkeys ps) : entriesFor (bagPairs ps) k = [] := by
  rw [entriesFor, List.filter_eq_nil_iff]
  intro p hp hpk
  exact h ((by simpa using hpk : p.1 = k) ▸ fst_of_mem_bagPairs hp)

theorem entriesFor_append (q q' : Query) (k : String) :
    entriesFor (q ++ q') k = entriesFor q k ++ entriesFor q' k := by
  simp [entriesFor]

theorem entriesFor_bagPairs_eq {ps : Params} {k : String} {v : ParamValue}
    (hnd : (pkeys ps).Nodup) (hmem : (k, v) ∈ ps) :
    entriesFor (bagPairs ps) k = entryPairs k v := by
  induction ps with
  | nil => cases hmem
  | cons kv rest ih =>
    obtain ⟨k', v'⟩ := kv
    have hpk : pkeys ((k', v') :: rest) = k' :: pkeys rest := rfl
    rw [hpk, List.nodup_cons] at hnd
    have hbp : bagPairs ((k', v') :: rest) = entryPairs k' v' ++ bagPairs rest := by
      simp [bagPairs, List.flatMap_cons]
    rw [List.mem_cons] at hmem
    rcases hmem with he | hr
    · injection he with e1 e2
      subst e1; subst e2
      rw [hbp, entriesFor_append, entriesFor_entryPairs_self,
        entriesFor_bagPairs_of_not_mem hnd.1, List.append_nil]
    · have hkmem : k ∈ pkeys rest := by
        simp only [pkeys, List.mem_map]
        exact ⟨(k, v), hr, rfl⟩
      have hne : k' ≠ k := fun e => hnd.1 (e ▸ hkmem)
      rw [hbp, entriesFor_append, entriesFor_entryPairs_ne hne,
        List.nil_append, ih hnd.2 hr]

theorem not_mem_qkeys_of_entriesFor_nil {q : Query} {k : String}
    (h : entriesFor q k = []) : k ∉ qkeys q := by
  intro hk
  rcases mem_qkeys_iff.mp hk with ⟨p, hp, hfst⟩
  rw [entriesFor, List.filter_eq_nil_iff] at h
  exact h p hp (by simp [hfst])

theorem mem_pkeys_of_mem {ps : Params} {k : String} {v : ParamValue}
    (h : (k, v) ∈ ps) : k ∈ pkeys ps := by
  simp only [pkeys, List.mem_map]
  exact ⟨(k, v), h, rfl⟩

theorem pkeys_append (a b : Params) : pkeys (a ++ b) = pkeys a ++ pkeys b := by
  simp [pkeys]

theorem qkeys_bagPairs_subset {ps : Params} {k : String}
    (h : k ∈ qkeys (bagPairs ps)) : k ∈ pkeys ps := by
  rcases mem_qkeys_iff.mp h with ⟨p, hp, hfst⟩
  exact hfst ▸ fst_of_mem_bagPairs hp

theorem entriesFor_tokenInit {apiKey : Option String} {k : String}
    (h : k ≠ "token") : entriesFor (tokenInit apiKey) k = [] := by
  rw [entriesFor, List.filter_eq_nil_iff]
  intro p hp hpk
  exact qkeys_tokenInit h (mem_qkeys_iff.mpr ⟨p, hp, by simpa using hpk⟩)

theorem entriesFor_buildQuery_eq {apiKey : Option String} {ps : Params}
    {k : String} {v : ParamValue} (hnd : (pkeys ps).Nodup)
    (htok : "token" ∉ pkeys ps) (hmem : (k, v) ∈ ps) :
    entriesFor (buildQuery apiKey ps) k = entryPairs k v := by
  have hkne : k ≠ "token" := fun e => htok (e ▸ mem_pkeys_of_mem hmem)
  rw [buildQuery_eq_of_nodup hnd htok, entriesFor_append,
    entriesFor_tokenInit hkne, List.nil_append, entriesFor_bagPairs_eq hnd hmem]

/-- Claim C1: for every parameter bag handed to the URL builder by the list
operations (keys pairwise distinct, and no key named token, since none of
the typed parameter interfaces declares one), every key whose value is
undefined, null or the empty string is absent from the query of the
constructed URL; every array-valued key appears as one query entry per
element, preserving the original order of the array; and every remaining
scalar key appears exactly once, with its stringified value. -/
theorem buildUrl_param_serialization (c : CivitaiClient) (ps : Params)
    (hnd : (pkeys ps).Nodup) (htok : "token" ∉ pkeys ps) :
    (∀ k v, (k, v) ∈ ps → v.skipped = true →
      k ∉ qkeys (buildQuery c.apiKey ps)) ∧
    (∀ k vs, (k, ParamValue.arr vs) ∈ ps →
      entriesFor (buildQuery c.apiKey ps) k = vs.map (fun x => (k, x.render))) ∧
    (∀ k v, (k, ParamValue.scalar v) ∈ ps →
      ParamValue.skipped (.scalar v) = false →
      entriesFor (buildQuery c.apiKey ps) k = [(k, v.render)]) := by
  refine ⟨?_, ?_, ?_⟩
  · intro k v hmem hskip
    apply not_mem_qkeys_of_entriesFor_nil
    rw [entriesFor_buildQuery_eq hnd htok hmem]
    cases v with
    | undef => rfl
    | null => rfl
    | scalar s =>
      have hs : s = .str "" := by
        simpa [ParamValue.skipped] using hskip
      simp [entryPairs, hs]
    | arr vs => simp [ParamValue.skipped] at hskip
  · intro k vs hmem
    rw [entriesFor_buildQuery_eq hnd htok hmem]
    rfl
  · intro k v hmem hskip
    rw [entriesFor_buildQuery_eq hnd htok hmem]
    have hs : ¬(v = .str "") := by
      simpa [ParamValue.skipped] using hskip
    simp [entryPairs, hs]

/-- Concrete bag exercising every case of claim C1. -/
def exampleBagC1 : Params :=
  [("query", .scalar (.str "")), ("limit", .scalar (.num 20)),
   ("types", .arr [.str "LORA", .str "Checkpoint"]), ("page", .null)]

/-- Witness for claim C1 at a concrete client and bag. -/
theorem buildUrl_param_serialization_witness :
    ("query" ∉ qkeys (buildQuery (some "secret") exampleBagC1) ∧
      "page" ∉ qkeys (buildQuery (some "secret") exampleBagC1)) ∧
    entriesFor (buildQuery (some "secret") exampleBagC1) "types" =
      [("types", "LORA"), ("types", "Checkpoint")] ∧
    entriesFor (buildQuery (some "secret") exampleBagC1) "limit" =
      [("limit", "20")] :=
  have h := buildUrl_param_serialization ⟨some "secret"⟩ exampleBagC1
    (by decide) (by decide)
  ⟨⟨h.1 "query" (.scalar (.str "")) (by decide) (by decide),
    h.1 "page" .null (by decide) (by decide)⟩,
   h.2.1 "types" [.str "LORA", .str "Checkpoint"] (by decide),
   h.2.2 "limit" (.num 20) (by decide) (by decide)⟩

/-- Claim C3: when a token is configured at construction time, the query of
every constructed URL contains it exactly once under the token key and the
outbound request carries the bearer-style authorization header with the
same value; when no token is configured, neither is present.  Bags are
typed, so they never declare a token key themselves. -/
theorem token_in_query_and_header (c : CivitaiClient) (ps : Params)
    (hnd : (pkeys ps).Nodup) (htok : "token" ∉ pkeys ps) :
    (∀ key, c.apiKey = some key → key ≠ "" →
      entriesFor (buildQuery c.apiKey ps) "token" = [("token", key)] ∧
      ("Authorization", "Bearer " ++ key) ∈ requestHeaders c) ∧
    (c.apiKey = none →
      "token" ∉ qkeys (buildQuery c.apiKey ps) ∧
      "Authorization" ∉ (requestHeaders c).map Prod.fst) := by
  have hq := @buildQuery_eq_of_nodup c.apiKey ps hnd htok
  constructor
  · intro key hk hne
    constructor
    · rw [hq, entriesFor_append, entriesFor_bagPairs_of_not_mem htok,
        List.append_nil, hk]
      simp [tokenInit, entriesFor, setParam, hne]
    · simp [requestHeaders, hk, hne]
  · intro hk
    constructor
    · apply not_mem_qkeys_of_entriesFor_nil
      rw [hq, entriesFor_append, entriesFor_bagPairs_of_not_mem htok,
        List.append_nil, hk]
      rfl
    · simp [requestHeaders, hk]

/-- Witness for claim C3 with a configured and an absent token. -/
theorem token_in_query_and_header_witness :
    (entriesFor (buildQuery (some "abc")
        [("limit", ParamValue.scalar (.num 20))]) "token" = [("token", "abc")] ∧
      ("Authorization", "Bearer " ++ "abc") ∈
        requestHeaders ⟨some "abc"⟩) ∧
    ("token" ∉ qkeys (buildQuery none [("limit", ParamValue.scalar (.num 20))]) ∧
      "Authorization" ∉ (requestHeaders ⟨none⟩).map Prod.fst) :=
  ⟨(token_in_query_and_header ⟨some "abc"⟩ [("limit", .scalar (.num 20))]
      (by decide) (by decide)).1 "abc" rfl (by decide),
   (token_in_query_and_header ⟨none⟩ [("limit", .scalar (.num 20))]
      (by decide) (by decide)).2 rfl⟩

/-- Claim C10: when the client is constructed with a token and the bag
itself binds the token key to a defined, non-null, non-empty scalar, the
constructed URL carries the value from the bag: the parameter loop runs
after the configured token is set, and its set semantics overwrites the
entry in place. -/
theorem caller_token_overrides (key : String) (hkey : key ≠ "") (ps : Params)
    (v : Scalar) (hnd : (pkeys ps).Nodup)
    (hmem : ("token", ParamValue.scalar v) ∈ ps)
    (hv : ParamValue.skipped (.scalar v) = false) :
    entriesFor (buildQuery (some key) ps) "token" = [("token", v.render)] := by
  obtain ⟨l1, l2, rfl⟩ := List.append_of_mem hmem
  have hvne : ¬(v = .str "") := by simpa [ParamValue.skipped] using hv
  rw [pkeys_append] at hnd
  rw [List.nodup_append] at hnd
  obtain ⟨hnd1, hnd2, hdisj12⟩ := hnd
  have hpk2 : pkeys (("token", ParamValue.scalar v) :: l2) =
      "token" :: pkeys l2 := rfl
  rw [hpk2, List.nodup_cons] at hnd2
  have htok1 : "token" ∉ pkeys l1 := fun h =>
    hdisj12 h (by rw [hpk2]; exact List.mem_cons_self _ _)
  have htok2 : "token" ∉ pkeys l2 := hnd2.1
  have hinit : tokenInit (some key) = [("token", key)] := by
    simp [tokenInit, hkey, setParam]
  have hstep1 : buildQuery (some key)
      (l1 ++ ("token", ParamValue.scalar v) :: l2) =
      l2.foldl (fun acc kv => addParam acc kv.1 kv.2)
        (addParam (tokenInit (some key) ++ bagPairs l1) "token"
          (ParamValue.scalar v)) := by
    rw [buildQuery, List.foldl_append, List.foldl_cons]
    rw [foldl_addParam_of_disjoint hnd1 (fun k hk =>
      qkeys_tokenInit (fun e => htok1 (e ▸ hk)))]
  have hfilter : (bagPairs l1).filter (fun p => decide (p.1 ≠ "token")) =
      bagPairs l1 := by
    rw [List.filter_eq_self]
    intro p hp
    simp only [decide_eq_true_eq]
    exact fun e => htok1 (e ▸ fst_of_mem_bagPairs hp)
  have hstep2 : addParam (tokenInit (some key) ++ bagPairs l1) "token"
      (ParamValue.scalar v) = ("token", v.render) :: bagPairs l1 := by
    rw [addParam, if_neg hvne, hinit, List.cons_append, List.nil_append,
      setParam]
    simp only [hfilter]
    simp
  have hstep3 : l2.foldl (fun acc kv => addParam acc kv.1 kv.2)
      (("token", v.render) :: bagPairs l1) =
      (("token", v.render) :: bagPairs l1) ++ bagPairs l2 := by
    apply foldl_addParam_of_disjoint hnd2.2
    intro k hk hmemq
    have hkne : k ≠ "token" := fun e => htok2 (e ▸ hk)
    have : k ∈ qkeys (bagPairs l1) := by
      simpa [qkeys, hkne] using hmemq
    exact hdisj12 (qkeys_bagPairs_subset this)
      (by rw [hpk2]; exact List.mem_cons_of_mem _ hk)
  rw [hstep1, hstep2, hstep3, List.cons_append, entriesFor]
  simp only [List.filter_cons]
  rw [if_pos (by simp)]
  have h1 : entriesFor (bagPairs l1) "token" = [] :=
    entriesFor_bagPairs_of_not_mem htok1
  have h2 : entriesFor (bagPairs l2) "token" = [] :=
    entriesFor_bagPairs_of_not_mem htok2
  rw [show (bagPairs l1 ++ bagPairs l2).filter (fun p => p.1 == "token") =
      entriesFor (bagPairs l1) "token" ++ entriesFor (bagPairs l2) "token" from
      by simp [entriesFor], h1, h2]
  rfl

/-- Witness for claim C10: a caller-supplied token parameter overwrites the
configured key abc. -/
theorem caller_token_overrides_witness :
    entriesFor (buildQuery (some "abc")
      [("token", ParamValue.scalar (.str "xyz"))]) "token" =
      [("token", "xyz")] :=
  caller_token_overrides "abc" (by decide)
    [("token", ParamValue.scalar (.str "xyz"))] (.str "xyz")
    (by decide) (by decide) (by decide)

theorem lookup_cons_eq {β : Type} (k k' : String) (v : β)
    (rest : List (String × β)) :
    List.lookup k ((k', v) :: rest) =
      if k == k' then some v else List.lookup k rest := by
  simp only [List.lookup]
  split <;> simp_all

theorem lookup_filter_none {opts : Params} {k : String}
    (g : String × ParamValue → Bool) (h : opts.lookup k = none) :
    (opts.filter g).lookup k = none := by
  induction opts with
  | nil => rfl
  | cons kv rest ih =>
    obtain ⟨k', v'⟩ := kv
    rw [lookup_cons_eq] at h
    cases hk : k == k'
    · rw [hk] at h
      simp only [Bool.false_eq_true, if_false] at h
      rw [List.filter_cons]
      split
      · rw [lookup_cons_eq, hk]
        simp only [Bool.false_eq_true, if_false]
        exact ih h
      · exact ih h
    · rw [hk] at h
      simp at h

theorem spread_single_lookup_none {k0 k : String} {v0 : ParamValue}
    {options : Params} (hne : (k == k0) = false)
    (h : options.lookup k = none) :
    (spreadInto [(k0, v0)] options).lookup k = none := by
  rw [spreadInto]
  simp only [List.map_cons, List.map_nil, List.singleton_append]
  rw [lookup_cons_eq]
  have hfst : (match options.lookup k0 with
      | some v => (k0, v)
      | none => (k0, v0)).1 = k0 := by
    cases options.lookup k0 <;> rfl
  rw [hfst, hne]
  simp only [Bool.false_eq_true, if_false]
  exact lookup_filter_none _ h

/-- Counterexample to claim C2: the by-tag helper with no caller options
forwards only the tag key; the query of the URL it builds contains neither
an nsfw entry nor a limit entry, so it neither excludes NSFW content nor
applies a result-count limit of 20. -/
theorem searchByTag_no_defaults_counterexample :
    buildQuery none (searchModelsByTagParams "anime" []) = [("tag", "anime")] ∧
    "nsfw" ∉ qkeys (buildQuery none (searchModelsByTagParams "anime" [])) ∧
    "limit" ∉ qkeys (buildQuery none (searchModelsByTagParams "anime" [])) := by
  refine ⟨by decide, by decide, by decide⟩

/-- Claim C2 (amended): the three utility methods — most downloaded with
default period Week, newest, highest rated with default period AllTime —
always send nsfw false (their signatures expose no way to override it) and
default the limit to 20 when the caller passes none; the by-tag, by-creator
and by-type helpers apply no nsfw and no limit defaults, simply spreading
the caller options over their single filter key. -/
theorem composition_defaults (period : Option String) (limit : Option Int)
    (tag username type : String) (options : Params) :
    getPopularModelsParams none none =
      [("sort", .scalar (.str "Most Downloaded")),
       ("period", .scalar (.str "Week")),
       ("limit", .scalar (.num 20)),
       ("nsfw", .scalar (.bool false))] ∧
    getLatestModelsParams none =
      [("sort", .scalar (.str "Newest")),
       ("limit", .scalar (.num 20)),
       ("nsfw", .scalar (.bool false))] ∧
    getTopRatedModelsParams none none =
      [("sort", .scalar (.str "Highest Rated")),
       ("period", .scalar (.str "AllTime")),
       ("limit", .scalar (.num 20)),
       ("nsfw", .scalar (.bool false))] ∧
    (getPopularModelsParams period limit).lookup "nsfw" =
      some (.scalar (.bool false)) ∧
    (getLatestModelsParams limit).lookup "nsfw" =
      some (.scalar (.bool false)) ∧
    (getTopRatedModelsParams period limit).lookup "nsfw" =
      some (.scalar (.bool false)) ∧
    (options.lookup "nsfw" = none →
      (searchModelsByTagParams tag options).lookup "nsfw" = none ∧
      (searchModelsByCreatorParams username options).lookup "nsfw" = none ∧
      (getModelsByTypeParams type options).lookup "nsfw" = none) ∧
    (options.lookup "limit" = none →
      (searchModelsByTagParams tag options).lookup "limit" = none ∧
      (searchModelsByCreatorParams username options).lookup "limit" = none ∧
      (getModelsByTypeParams type options).lookup "limit" = none) := by
  refine ⟨rfl, rfl, rfl, rfl, rfl, rfl, ?_, ?_⟩
  · intro h
    exact ⟨spread_single_lookup_none (by decide) h,
      spread_single_lookup_none (by decide) h,
      spread_single_lookup_none (by decide) h⟩
  · intro h
    exact ⟨spread_single_lookup_none (by decide) h,
      spread_single_lookup_none (by decide) h,
      spread_single_lookup_none (by decide) h⟩

/-- Witness for claim C2 (amended) at concrete arguments. -/
theorem composition_defaults_witness :
    (searchModelsByTagParams "anime" [("page", ParamValue.scalar (.num 2))]
      |>.lookup "nsfw") = none ∧
    (getModelsByTypeParams "LORA" [("page", ParamValue.scalar (.num 2))]
      |>.lookup "limit") = none ∧
    getLatestModelsParams none =
      [("sort", .scalar (.str "Newest")),
       ("limit", .scalar (.num 20)),
       ("nsfw", .scalar (.bool false))] :=
  have h := composition_defaults none none "anime" "bob" "LORA"
    [("page", ParamValue.scalar (.num 2))]
  ⟨(h.2.2.2.2.2.2.1 rfl).1, (h.2.2.2.2.2.2.2 rfl).2.2, h.2.1⟩

/-- Claim C4: getDownloadUrl is pure string construction, a total function
with no network effect.  For version id 12345 with no configured token it
returns the URL whose path ends in download/models/12345 and whose query
has no token entry; with configured token abc the same call returns the
URL that additionally carries token=abc. -/
theorem getDownloadUrl_spec :
    getDownloadUrl ⟨none⟩ 12345 =
      "https://civitai.com/api/v1/download/models/12345" ∧
    "token" ∉ qkeys (buildUrlParts ⟨none⟩ "/download/models/12345" []).query ∧
    getDownloadUrl ⟨some "abc"⟩ 12345 =
      "https://civitai.com/api/v1/download/models/12345?token=abc" ∧
    ("token", "abc") ∈ (buildUrlParts ⟨some "abc"⟩ "/download/models/12345" []).query := by
  refine ⟨by decide, by decide, by decide, by decide⟩

/-- Claim C5: a completed response with a non-2xx status classifies as an
httpStatus failure — not a transport failure and not a validation failure —
and the surfaced message carries the numeric status and the status text. -/
theorem http_status_failure {α : Type} (status : Nat) (statusText : String)
    (body : Json) (schema : Json → Except String α)
    (h : ¬(200 ≤ status ∧ status < 300)) :
    classifyRequest (.success status statusText body) schema =
      .error (.httpStatus status statusText) ∧
    makeRequest (.success status statusText body) schema =
      .error ("API request failed: " ++
        ("HTTP " ++ toString status ++ ": " ++ statusText)) := by
  have h1 : classifyRequest (FetchResult.success status statusText body)
      schema = .error (.httpStatus status statusText) := by
    simp [classifyRequest, h]
  exact ⟨h1, by simp [makeRequest, h1, FailKind.message]⟩

/-- Witness for claim C5: a simulated 429 on the models list operation. -/
theorem http_status_failure_witness :
    classifyRequest (FetchResult.success 429 "Too Many Requests" Json.null)
      parseModelsResponse =
      Except.error (FailKind.httpStatus 429 "Too Many Requests") ∧
    makeRequest (FetchResult.success 429 "Too Many Requests" Json.null)
      parseModelsResponse =
      Except.error "API request failed: HTTP 429: Too Many Requests" :=
  http_status_failure 429 "Too Many Requests" Json.null parseModelsResponse
    (by decide)

/-- Claim C6: a network-level rejection of the single outbound call is
re-raised as the single uniform request-failed failure carrying the message
of the underlying cause, and every failure of makeRequest — transport, HTTP
status or validation — surfaces under that same uniform prefix, so callers
need not distinguish the kinds beyond it. -/
theorem uniform_request_failure {α : Type} (fr : FetchResult)
    (schema : Json → Except String α) :
    (∀ message, fr = .networkError message →
      makeRequest fr schema = .error ("API request failed: " ++ message)) ∧
    (∀ m, makeRequest fr schema = .error m →
      ∃ rest, m = "API request failed: " ++ rest) := by
  constructor
  · intro message h
    subst h
    rfl
  · intro m h
    unfold makeRequest at h
    cases hc : classifyRequest fr schema with
    | ok v => rw [hc] at h; cases h
    | error k =>
      rw [hc] at h
      injection h with he
      exact ⟨k.message, he.symm⟩

/-- Witness for claim C6 at a concrete connection-refused rejection. -/
theorem uniform_request_failure_witness :
    makeRequest (FetchResult.networkError "connect ECONNREFUSED 127.0.0.1:443")
      parseModelsResponse =
      Except.error ("API request failed: " ++ "connect ECONNREFUSED 127.0.0.1:443") :=
  (uniform_request_failure (FetchResult.networkError
    "connect ECONNREFUSED 127.0.0.1:443") parseModelsResponse).1 _ rfl

/-- Image JSON object with no id field, as some listing contexts return. -/
def imageNoId : Json :=
  .obj [("url", .str "https://img.example/1.png"), ("hash", .str "h1"),
    ("width", .num 512), ("height", .num 768)]

/-- Image JSON object whose nsfwLevel is the raw number 2. -/
def imageNsfwNum : Json :=
  .obj [("url", .str "https://img.example/1.png"), ("hash", .str "h1"),
    ("width", .num 512), ("height", .num 768), ("nsfwLevel", .num 2)]

/-- Image JSON object whose nsfwLevel is the named level Mature. -/
def imageNsfwName : Json :=
  .obj [("url", .str "https://img.example/1.png"), ("hash", .str "h1"),
    ("width", .num 512), ("height", .num 768), ("nsfwLevel", .str "Mature")]

/-- Metadata JSON object whose nextCursor is a string. -/
def metaCursorStr : Json := .obj [("nextCursor", .str "abc123")]

/-- Metadata JSON object whose nextCursor is a number. -/
def metaCursorNum : Json := .obj [("nextCursor", .num 42)]

/-- Claim C7: the entity validators tolerate the documented upstream
inconsistencies: an Image without id decodes with id absent; nsfwLevel
decodes both as the number 2 and as the name Mature, preserving the
representation; Metadata decodes with nextCursor as the string abc123 and
as the number 42. -/
theorem schema_tolerance :
    (parseImage imageNoId).toOption.map Image.id = some none ∧
    (parseImage imageNsfwNum).toOption.map Image.nsfwLevel =
      some (some (.num 2)) ∧
    (parseImage imageNsfwName).toOption.map Image.nsfwLevel =
      some (some (.level "Mature")) ∧
    (parseMetadata metaCursorStr).toOption.map Metadata.nextCursor =
      some (some (.str "abc123")) ∧
    (parseMetadata metaCursorNum).toOption.map Metadata.nextCursor =
      some (some (.num 42)) :=
  ⟨rfl, rfl, rfl, rfl, rfl⟩

theorem bind_ok_iff {α β : Type} {x : Except String α}
    {f : α → Except String β} {b : β} :
    x >>= f = .ok b ↔ ∃ a, x = .ok a ∧ f a = .ok b := by
  cases x <;> simp [Bind.bind, Except.bind]

theorem parseElems_length {α : Type} {p : Json → Except String α}
    {xs : List Json} {ys : List α} (h : parseElems p xs = .ok ys) :
    ys.length = xs.length := by
  induction xs generalizing ys with
  | nil =>
    have h' : (Except.ok [] : Except String (List α)) = .ok ys := h
    injection h' with he
    rw [← he]
    rfl
  | cons j rest ih =>
    simp only [parseElems] at h
    rw [bind_ok_iff] at h
    obtain ⟨a, _, h⟩ := h
    rw [bind_ok_iff] at h
    obtain ⟨as, has, h⟩ := h
    have h' : (Except.ok (a :: as) : Except String (List α)) = .ok ys := h
    injection h' with he
    rw [← he, List.length_cons, List.length_cons, ih has]

/-- Claim C8: a JSON object validates as a Model only when its type field
is present with a value in the fixed enumeration — so validation fails
whenever type is missing or outside it — and only when its modelVersions
field is present holding an array, whose length the typed output preserves
(possibly zero). -/
theorem model_requires_type_and_versions (fields : List (String × Json))
    (m : Model) (h : parseModel (.obj fields) = .ok m) :
    (∃ s, fields.lookup "type" = some (Json.str s) ∧ s ∈ modelTypes ∧
      m.type = s) ∧
    (∃ xs, fields.lookup "modelVersions" = some (Json.arr xs) ∧
      m.modelVersions.length = xs.length) := by
  simp only [parseModel] at h
  rw [bind_ok_iff] at h; obtain ⟨idv, hid, h⟩ := h
  rw [bind_ok_iff] at h; obtain ⟨namev, hname, h⟩ := h
  rw [bind_ok_iff] at h; obtain ⟨descv, hdesc, h⟩ := h
  rw [bind_ok_iff] at h; obtain ⟨tyv, hty, h⟩ := h
  rw [bind_ok_iff] at h; obtain ⟨nsfwv, hnsfw, h⟩ := h
  rw [bind_ok_iff] at h; obtain ⟨tagsv, htags, h⟩ := h
  rw [bind_ok_iff] at h; obtain ⟨modev, hmode, h⟩ := h
  rw [bind_ok_iff] at h; obtain ⟨creatorv, hcreator, h⟩ := h
  rw [bind_ok_iff] at h; obtain ⟨statsv, hstats, h⟩ := h
  rw [bind_ok_iff] at h; obtain ⟨mvv, hmv, h⟩ := h
  rw [bind_ok_iff] at h; obtain ⟨poiv, hpoi, h⟩ := h
  have h' : (Except.ok (Model.mk idv namev descv tyv nsfwv tagsv modev
      creatorv statsv mvv poiv) : Except String Model) = .ok m := h
  injection h' with hm
  constructor
  · simp only [reqField] at hty
    split at hty
    · cases hty
    · next j hl =>
      cases j with
      | str s =>
        by_cases hs : s ∈ modelTypes
        · refine ⟨s, hl, hs, ?_⟩
          have : tyv = s := by simpa [parseEnum, hs] using hty.symm
          rw [← hm, this]
        · simp [parseEnum, hs] at hty
      | null => simp [parseEnum] at hty
      | bool b => simp [parseEnum] at hty
      | num n => simp [parseEnum] at hty
      | arr xs => simp [parseEnum] at hty
      | obj fs => simp [parseEnum] at hty
  · simp only [reqField] at hmv
    split at hmv
    · cases hmv
    · next j hl =>
      cases j with
      | arr xs =>
        simp only [parseArrayOf] at hmv
        refine ⟨xs, hl, ?_⟩
        rw [← hm]
        exact parseElems_length hmv
      | null => cases hmv
      | bool b => cases hmv
      | num n => cases hmv
      | str s => cases hmv
      | obj fs => cases hmv

/-- Fields of a minimal valid Model JSON object. -/
def minimalModelFields : List (String × Json) :=
  [("id", .num 101), ("name", .str "Test Model"),
   ("description", .str "A test"), ("type", .str "Checkpoint"),
   ("nsfw", .bool false), ("tags", .arr []), ("mode", .null),
   ("creator", .obj [("username", .str "alice")]),
   ("modelVersions", .arr [])]

/-- The typed Model produced from `minimalModelFields`. -/
def minimalModel : Model :=
  { id := 101, name := "Test Model", description := "A test",
    type := "Checkpoint", nsfw := false, tags := [], mode := some none,
    creator := Creator.mk "alice" none none none,
    stats := none, modelVersions := [], poi := none }

/-- Witness for claim C8 at the minimal valid Model object. -/
theorem model_requires_type_and_versions_witness :
    (∃ s, minimalModelFields.lookup "type" = some (Json.str s) ∧
      s ∈ modelTypes ∧ minimalModel.type = s) ∧
    (∃ xs, minimalModelFields.lookup "modelVersions" =
      some (Json.arr xs) ∧ minimalModel.modelVersions.length = xs.length) :=
  model_requires_type_and_versions minimalModelFields minimalModel rfl

/-- Claim C9: decoding the minimal valid Model JSON object succeeds and
yields the typed value whose queryable fields equal the corresponding
input fields. -/
theorem minimal_model_roundtrip :
    parseModel (.obj minimalModelFields) = .ok minimalModel ∧
    minimalModel.id = 101 ∧ minimalModel.name = "Test Model" ∧
    minimalModel.description = "A test" ∧
    minimalModel.type = "Checkpoint" ∧ minimalModel.nsfw = false ∧
    minimalModel.tags = [] ∧ minimalModel.mode = some none ∧
    minimalModel.creator.username = "alice" ∧
    minimalModel.modelVersions = [] :=
  ⟨rfl, rfl, rfl, rfl, rfl, rfl, rfl, rfl, rfl, rfl⟩

end Civitai
